import Mathlib

/-
Verification of the OCTIS similarity-metrics core
(octis/evaluation_metrics/similarity_metrics.py and
octis/evaluation_metrics/utils.py), shallowly embedded in Lean 4.

Modelling conventions:
* Python floats are modelled by the rationals.  The square root used
  inside cosine similarity / cosine distance is threaded as an explicit
  parameter (sqrt : Rat → Rat); theorems about concrete cosine values
  carry hypotheses pinning sqrt at the points where it is consulted,
  hypotheses which the exact real square root satisfies there.
* Scalar Python division (float / int and float / float on Python
  scalars) raises ZeroDivisionError on a zero divisor and is modelled
  by pyDivQ into Except.  Elementwise numpy division does not raise
  (it yields inf or nan with a warning) and is modelled by the
  totalized rational division of Lean; theorems whose conclusions
  depend on a quotient carry nonzero-denominator hypotheses.
* Python dicts are ordered association lists with distinct keys; the
  distinctness is taken as a hypothesis where needed.
-/

namespace Octis

/-- Exceptions observable from the embedded code.  The first group are
the Python exception kinds actually raised by the source; the two
spec-level constructors at the end (noTopicPairsError and
invalidEmbeddingFormat) are error kinds named by the specification
that the source never constructs, kept here so that theorems can
compare the code's actual failures against the spec's claimed ones. -/
inductive PyErr : Type
  | zeroDivisionError : PyErr
  | indexError : PyErr
  | keyError : PyErr
  | assertionError : PyErr
  | valueError : PyErr
  | stopIteration : PyErr
  | exceptionMsg : String → PyErr
  | noTopicPairsError : PyErr
  | invalidEmbeddingFormat : PyErr
deriving DecidableEq, Repr

/-- Python scalar division: raises ZeroDivisionError on divisor 0. -/
def pyDivQ (a b : ℚ) : Except PyErr ℚ :=
  if b = 0 then Except.error PyErr.zeroDivisionError else Except.ok (a / b)

/-- Elementwise numpy vector addition (operands share a length in all
well-formed uses). -/
def vecAdd (u v : List ℚ) : List ℚ := List.zipWith (fun a b => a + b) u v

/-- numpy vector times scalar, elementwise. -/
def vecScale (v : List ℚ) (c : ℚ) : List ℚ := v.map (fun a => a * c)

/-- numpy vector divided by scalar, elementwise; totalized (numpy warns
but does not raise on a zero divisor). -/
def vecDivScalar (v : List ℚ) (c : ℚ) : List ℚ := v.map (fun a => a / c)

/-- Dot product of two vectors. -/
def dot (u v : List ℚ) : ℚ := (List.zipWith (fun a b => a * b) u v).sum

/-- Cosine similarity dot u v / (‖u‖ ‖v‖), with the square root supplied
as a parameter (gensim's KeyedVectors.similarity). -/
def cosineSimilarity (sqrt : ℚ → ℚ) (u v : List ℚ) : ℚ :=
  dot u v / (sqrt (dot u u) * sqrt (dot v v))

/-- scipy.spatial.distance.cosine: one minus the cosine similarity. -/
def cosineDistance (sqrt : ℚ → ℚ) (u v : List ℚ) : ℚ :=
  1 - cosineSimilarity sqrt u v

/-- itertools.combinations(xs, 2): unordered pairs in index-ascending
order. -/
def combinations2 {α : Type} : List α → List (α × α)
  | [] => []
  | x :: xs => xs.map (fun y => (x, y)) ++ combinations2 xs

/-- Runs a fallible body over a list, aborting at the first exception,
exactly as a Python for-loop raising mid-iteration does. -/
def exceptMap {ε α β : Type} (f : α → Except ε β) : List α → Except ε (List β)
  | [] => Except.ok []
  | x :: xs =>
    match f x with
    | Except.error e => Except.error e
    | Except.ok y =>
      match exceptMap f xs with
      | Except.error e => Except.error e
      | Except.ok ys => Except.ok (y :: ys)

/-- gensim KeyedVectors: an ordered vocabulary (key_to_index) and the
stacked vector rows, with the declared vector_size. -/
structure KeyedVectors : Type where
  vectorSize : Nat
  keys : List String
  vectors : List (List ℚ)
deriving DecidableEq, Repr

/-- Vector lookup: index of the word in key_to_index, then the row of
the vectors matrix. -/
def KeyedVectors.getVec? (kv : KeyedVectors) (w : String) : Option (List ℚ) :=
  (kv.keys.findIdx? (fun k => k == w)).bind (fun i => kv.vectors.get? i)

/-- wv[word]; callers in the source only reach this after a membership
test, so the default is never observable on well-formed inputs. -/
def KeyedVectors.vec (kv : KeyedVectors) (w : String) : List ℚ :=
  (kv.getVec? w).getD []

/-- word in self.wv.key_to_index.keys() -/
def KeyedVectors.hasWord (kv : KeyedVectors) (w : String) : Bool :=
  kv.keys.contains w

/-- wv.similarity(w1, w2): cosine similarity of the two stored vectors. -/
def wvSimilarity (sqrt : ℚ → ℚ) (kv : KeyedVectors) (w1 w2 : String) : ℚ :=
  cosineSimilarity sqrt (kv.vec w1) (kv.vec w2)

/-- The inner double loop of WordEmbeddingsPairwiseSimilarity.score for
one topic pair: accumulate wv.similarity(word1, word2) over
list1[:topk] × list2[:topk] restricted to word pairs wholly inside the
embedding vocabulary, together with the pair-word counter. -/
def wepsPairAcc (sqrt : ℚ → ℚ) (kv : KeyedVectors) (topk : Nat)
    (l1 l2 : List String) : ℚ × Nat :=
  ((l1.take topk).flatMap (fun w1 => (l2.take topk).map (fun w2 => (w1, w2)))).foldl
    (fun acc p =>
      if kv.hasWord p.1 && kv.hasWord p.2 then
        (acc.1 + wvSimilarity sqrt kv p.1 p.2, acc.2 + 1)
      else acc)
    ((0 : ℚ), (0 : Nat))

/-- WordEmbeddingsPairwiseSimilarity.score.  Receives the topics list
(model_output['topics']).  topics[0] on an empty list is an IndexError;
a topk larger than the first topic raises the explicit Exception of the
source; each pair divides its similarity sum by its pair-word counter
(ZeroDivisionError when zero), and the result is the mean over the
pair count (ZeroDivisionError when there are no pairs). -/
def wepsScore (sqrt : ℚ → ℚ) (kv : KeyedVectors) (topk : Nat)
    (topics : List (List String)) : Except PyErr ℚ :=
  match topics with
  | [] => Except.error PyErr.indexError
  | t0 :: _ =>
    if topk > t0.length then
      Except.error (PyErr.exceptionMsg "Words in topics are less than topk")
    else
      match exceptMap
          (fun p =>
            pyDivQ (wepsPairAcc sqrt kv topk p.1 p.2).1
              ((wepsPairAcc sqrt kv topk p.1 p.2).2 : ℚ))
          (combinations2 topics) with
      | Except.error e => Except.error e
      | Except.ok vals => pyDivQ vals.sum ((combinations2 topics).length : ℚ)

/-- The per-topic centroid loop of WordEmbeddingsCentroidSimilarity:
sum the embedding vectors of the in-vocabulary words among the first
topk, with the in-vocabulary counter, starting from
np.zeros(wv.vector_size). -/
def centroidAcc (kv : KeyedVectors) (topk : Nat) (l : List String) :
    List ℚ × Nat :=
  (l.take topk).foldl
    (fun acc w =>
      if kv.hasWord w then (vecAdd acc.1 (kv.vec w), acc.2 + 1) else acc)
    (List.replicate kv.vectorSize (0 : ℚ), (0 : Nat))

/-- A topic's centroid as WordEmbeddingsCentroidSimilarity computes it:
the accumulated sum divided elementwise (numpy, totalized) by the
in-vocabulary counter. -/
def topicCentroid (kv : KeyedVectors) (topk : Nat) (l : List String) : List ℚ :=
  vecDivScalar (centroidAcc kv topk l).1 ((centroidAcc kv topk l).2 : ℚ)

/-- One pair contribution of WordEmbeddingsCentroidSimilarity.score:
1 - cosine(centroid1, centroid2).  No Python scalar division occurs
here, so the pair value is total. -/
def wecsPair (sqrt : ℚ → ℚ) (kv : KeyedVectors) (topk : Nat)
    (l1 l2 : List String) : ℚ :=
  1 - cosineDistance sqrt (topicCentroid kv topk l1) (topicCentroid kv topk l2)

/-- WordEmbeddingsCentroidSimilarity.score: same guards as the pairwise
scorer, then the mean of the pair values over the pair count. -/
def wecsScore (sqrt : ℚ → ℚ) (kv : KeyedVectors) (topk : Nat)
    (topics : List (List String)) : Except PyErr ℚ :=
  match topics with
  | [] => Except.error PyErr.indexError
  | t0 :: _ =>
    if topk > t0.length then
      Except.error (PyErr.exceptionMsg "Words in topics are less than topk")
    else
      pyDivQ ((combinations2 topics).map
          (fun p => wecsPair sqrt kv topk p.1 p.2)).sum
        ((combinations2 topics).length : ℚ)

/-- The weighted-centroid loop of WordEmbeddingsWeightedSumSimilarity
over one distribution row: for each (id, weight) of enumerate(row),
look the id up in id2word (KeyError when absent) and the word up in the
embedding (KeyError when absent), accumulating vector * weight and the
weight sum. -/
def wessAccum (kv : KeyedVectors) (id2word : List String) :
    List (Nat × ℚ) → List ℚ × ℚ → Except PyErr (List ℚ × ℚ)
  | [], acc => Except.ok acc
  | (i, w) :: rest, acc =>
    match id2word.get? i with
    | none => Except.error PyErr.keyError
    | some word =>
      match kv.getVec? word with
      | none => Except.error PyErr.keyError
      | some v => wessAccum kv id2word rest (vecAdd acc.1 (vecScale v w), acc.2 + w)

/-- A row's weighted centroid: the accumulated weighted vector sum
divided elementwise (numpy, totalized) by the weight sum. -/
def wessCentroid (kv : KeyedVectors) (id2word : List String) (row : List ℚ) :
    Except PyErr (List ℚ) :=
  match wessAccum kv id2word row.enum (List.replicate kv.vectorSize (0 : ℚ), 0) with
  | Except.error e => Except.error e
  | Except.ok acc => Except.ok (vecDivScalar acc.1 acc.2)

/-- One pair contribution of WordEmbeddingsWeightedSumSimilarity.score
for the index pair (i, j).  The source computes BOTH centroids from
beta[i]: its second centroid loop iterates enumerate(beta[i]) again, so
the second argument of the cosine distance never involves row j. -/
def wessPairValue (sqrt : ℚ → ℚ) (kv : KeyedVectors) (id2word : List String)
    (beta : List (List ℚ)) (i j : Nat) : Except PyErr ℚ :=
  match wessCentroid kv id2word (beta.getD i []) with
  | Except.error e => Except.error e
  | Except.ok c1 =>
    match wessCentroid kv id2word (beta.getD i []) with
    | Except.error e => Except.error e
    | Except.ok c2 => Except.ok (cosineDistance sqrt c1 c2)

/-- Modelled from the spec: the pair contribution section 4.4 describes,
with the second centroid built from row j.  Kept only for comparison
with wessPairValue, the one the source computes. -/
def wessPairValueSpec (sqrt : ℚ → ℚ) (kv : KeyedVectors) (id2word : List String)
    (beta : List (List ℚ)) (i j : Nat) : Except PyErr ℚ :=
  match wessCentroid kv id2word (beta.getD i []) with
  | Except.error e => Except.error e
  | Except.ok c1 =>
    match wessCentroid kv id2word (beta.getD j []) with
    | Except.error e => Except.error e
    | Except.ok c2 => Except.ok (cosineDistance sqrt c1 c2)

/-- A numpy float64 scalar as observed at the end of
WordEmbeddingsWeightedSumSimilarity.score: either an ordinary finite
value or the non-finite result (nan or inf) that numpy division by
zero produces together with a RuntimeWarning, without raising. -/
inductive NpFloat : Type
  | finite : ℚ → NpFloat
  | nanOrInf : NpFloat
deriving DecidableEq, Repr

/-- numpy scalar division: never raises; a zero divisor warns and
yields a non-finite float.  Used where the divisor is the constant 0,
so the non-finiteness must be explicit rather than totalized away. -/
def npDiv (a b : ℚ) : NpFloat :=
  if b = 0 then NpFloat.nanOrInf else NpFloat.finite (a / b)

/-- WordEmbeddingsWeightedSumSimilarity.score.  Receives
model_output['topic-word-distribution'] as beta.  The source
initializes count = 0 and never increments it inside the pair loop.
The final wess / count therefore depends on the type wess reached:
with no pair processed (fewer than two rows) wess is still the Python
int 0 and the int division 0 / 0 raises ZeroDivisionError; once a pair
has been accumulated wess is a numpy float64 (scipy's cosine returns
one) and numpy scalar division by the int 0 does not raise — it warns
and returns a non-finite float. -/
def wessScore (sqrt : ℚ → ℚ) (kv : KeyedVectors) (id2word : List String)
    (beta : List (List ℚ)) : Except PyErr NpFloat :=
  let count : Nat := 0
  let pairs := combinations2 (List.range beta.length)
  match exceptMap (fun p => wessPairValue sqrt kv id2word beta p.1 p.2) pairs with
  | Except.error e => Except.error e
  | Except.ok vals =>
    if pairs.isEmpty then
      match pyDivQ vals.sum (count : ℚ) with
      | Except.error e => Except.error e
      | Except.ok q => Except.ok (NpFloat.finite q)
    else
      Except.ok (npDiv vals.sum (count : ℚ))

/-- One pair contribution of PairwiseJaccardSimilarity.score:
len(set(list1[:topk]) ∩ set(list2[:topk])) over
len(list1[:topk]) + len(list2[:topk]) - intersection.  Note the
denominator uses the raw slice lengths, not the set sizes.  The
division is Python scalar division (float(intersection) / union). -/
def jaccardPair (topk : Nat) (l1 l2 : List String) : Except PyErr ℚ :=
  let inter : Nat := ((l1.take topk).dedup.filter (fun w => w ∈ l2.take topk)).length
  pyDivQ (inter : ℚ)
    (((l1.take topk).length : ℚ) + ((l2.take topk).length : ℚ) - (inter : ℚ))

/-- Modelled from the spec: the pair score section 4.5 describes when
both the intersection and the two sizes treat the top-k slices as sets
(duplicates collapsed).  Kept only for comparison with jaccardPair. -/
def jaccardPairSpec (topk : Nat) (l1 l2 : List String) : ℚ :=
  let inter : Nat := ((l1.take topk).dedup.filter (fun w => w ∈ l2.take topk)).length
  (inter : ℚ) /
    (((l1.take topk).dedup.length : ℚ) + ((l2.take topk).dedup.length : ℚ) - (inter : ℚ))

/-- PairwiseJaccardSimilarity.score: no topk guard and no topic-count
guard in the source; the mean over the pair count divides by zero when
there are fewer than two topics. -/
def pjsScore (topk : Nat) (topics : List (List String)) : Except PyErr ℚ :=
  match exceptMap (fun p => jaccardPair topk p.1 p.2) (combinations2 topics) with
  | Except.error e => Except.error e
  | Except.ok vals => pyDivQ vals.sum ((combinations2 topics).length : ℚ)

/-- WordEmbeddingsRBOMatch.score: one minus the wrapped
WordEmbeddingsInvertedRBO diversity score.  The wrapped metric lives in
octis/evaluation_metrics/diversity_metrics.py, outside this core; per
the spec it is an external collaborator exposing a score in the unit
interval, so it is passed in as an abstract function. -/
def werboMatchScore {α : Type} (diversityScore : α → ℚ) (modelOutput : α) : ℚ :=
  1 - diversityScore modelOutput

/-- WordEmbeddingsRBOCentroid.score: one minus the wrapped
WordEmbeddingsInvertedRBOCentroid diversity score. -/
def werboCentroidScore {α : Type} (diversityScore : α → ℚ) (modelOutput : α) : ℚ :=
  1 - diversityScore modelOutput

/-- RBO.score: one minus the wrapped InvertedRBO diversity score. -/
def rboScore {α : Type} (diversityScore : α → ℚ) (modelOutput : α) : ℚ :=
  1 - diversityScore modelOutput

/-- A numpy array as far as the conversion code inspects one: its shape
and its (flattened) payload. -/
structure NpArr : Type where
  shape : List Nat
  data : List ℚ
deriving DecidableEq, Repr

/-- KeyedVectorsMixin._convert_dict_to_keyedvectors.  next(iter(...)) on
an empty dict raises StopIteration; the asserts check that the FIRST
value is a 1-dimensional array (AssertionError otherwise); np.stack
then raises ValueError unless every value has the same shape.  The
vocabulary is the dict's keys in encounter order and the vectors are
the dict's values stacked in that order. -/
def convertDictToKeyedvectors (dic : List (String × NpArr)) :
    Except PyErr KeyedVectors :=
  match dic with
  | [] => Except.error PyErr.stopIteration
  | (_, arr) :: _ =>
    if arr.shape.length = 1 then
      if dic.all (fun kvp => kvp.2.shape == arr.shape) then
        Except.ok
          (KeyedVectors.mk (arr.shape.headD 0) (dic.map Prod.fst)
            (dic.map (fun kvp => kvp.2.data)))
      else Except.error PyErr.valueError
    else Except.error PyErr.assertionError

/-- A concrete stand-in for the floating square root, fixed at the
rational points the tests below consult; the exact real square root
takes the same values there. -/
def testSqrt (q : ℚ) : ℚ :=
  if q = 1 then 1 else if q = 4 then 2 else 0

/-- A two-word embedding with orthogonal unit vectors. -/
def kvAB : KeyedVectors :=
  KeyedVectors.mk 2 ["a", "b"] [[(1 : ℚ), 0], [0, 1]]

/-- A one-word embedding whose single vector has squared norm 4. -/
def kvA2 : KeyedVectors :=
  KeyedVectors.mk 1 ["a"] [[(2 : ℚ)]]

instance {ε α : Type} [DecidableEq ε] [DecidableEq α] : DecidableEq (Except ε α) :=
  fun a b =>
    match a, b with
    | Except.error e1, Except.error e2 =>
      if h : e1 = e2 then isTrue (by rw [h])
      else isFalse (fun hc => h (Except.error.inj hc))
    | Except.error _, Except.ok _ => isFalse (fun hc => Except.noConfusion hc)
    | Except.ok _, Except.error _ => isFalse (fun hc => Except.noConfusion hc)
    | Except.ok v1, Except.ok v2 =>
      if h : v1 = v2 then isTrue (by rw [h])
      else isFalse (fun hc => h (Except.ok.inj hc))

/-! Helper lemmas. -/

lemma foldl_step_id {α β : Type} (step : β → α → β) (L : List α) (acc : β)
    (h : ∀ x ∈ L, ∀ b, step b x = b) : L.foldl step acc = acc := by
  induction L generalizing acc with
  | nil => rfl
  | cons x xs ih =>
    simp only [List.foldl_cons, h x (by simp)]
    exact ih acc (fun y hy b => h y (by simp [hy]) b)

lemma exceptMap_error_unique {ε α β : Type} (f : α → Except ε β) (L : List α) (e : ε)
    (hall : ∀ x ∈ L, ∀ e2, f x = Except.error e2 → e2 = e)
    (hex : ∃ x ∈ L, f x = Except.error e) :
    exceptMap f L = Except.error e := by
  induction L with
  | nil => simp at hex
  | cons x xs ih =>
    cases hfx : f x with
    | error e2 =>
      have : e2 = e := hall x (by simp) e2 hfx
      subst this
      simp [exceptMap, hfx]
    | ok y =>
      obtain ⟨x0, hx0, hfx0⟩ := hex
      rcases List.mem_cons.mp hx0 with h1 | h1
      · subst h1; rw [hfx] at hfx0; exact absurd hfx0 (by simp)
      · have hrec : exceptMap f xs = Except.error e :=
          ih (fun y2 hy2 e2 he2 => hall y2 (by simp [hy2]) e2 he2) ⟨x0, h1, hfx0⟩
        simp [exceptMap, hfx, hrec]

lemma mem_combinations2_replicate {α : Type} (n : Nat) (l : α) :
    ∀ p ∈ combinations2 (List.replicate n l), p = (l, l) := by
  induction n with
  | zero => simp [combinations2]
  | succ m ih =>
    intro p hp
    rw [List.replicate_succ] at hp
    simp only [combinations2, List.mem_append] at hp
    rcases hp with hp | hp
    · obtain ⟨y, hy, rfl⟩ := List.mem_map.mp hp
      have : y = l := List.eq_of_mem_replicate hy
      rw [this]
    · exact ih p hp

lemma combinations2_ne_nil {α : Type} (xs : List α) (h : 2 ≤ xs.length) :
    combinations2 xs ≠ [] := by
  match xs with
  | [] => simp at h
  | [x] => simp at h
  | x :: y :: rest => simp [combinations2]

lemma inter_length_eq_card (xs ys : List String) :
    ((xs.dedup.filter (fun w => w ∈ ys)).length : ℕ) =
      (xs.toFinset ∩ ys.toFinset).card := by
  have hnd : (xs.dedup.filter (fun w => decide (w ∈ ys))).Nodup :=
    (List.nodup_dedup xs).filter _
  rw [← List.toFinset_card_of_nodup hnd]
  congr 1
  ext a
  simp [List.mem_filter, Finset.mem_inter, List.mem_toFinset, List.mem_dedup]

lemma assoc_getVec (l : List (String × NpArr)) (hnd : (l.map Prod.fst).Nodup)
    (p : String × NpArr) (hp : p ∈ l) :
    ((l.map Prod.fst).findIdx? (fun k => k == p.1)).bind
      (fun i => (l.map (fun q => q.2.data)).get? i) = some p.2.data := by
  induction l with
  | nil => simp at hp
  | cons q rest ih =>
    by_cases hq : q.1 = p.1
    · have hpq : p = q := by
        rcases List.mem_cons.mp hp with h1 | h1
        · exact h1
        · exfalso
          simp only [List.map_cons, List.nodup_cons] at hnd
          exact hnd.1 (hq ▸ (List.mem_map.mpr ⟨p, h1, rfl⟩))
      subst hpq
      simp [List.findIdx?_cons, hq]
    · have hp2 : p ∈ rest := by
        rcases List.mem_cons.mp hp with h1 | h1
        · exact absurd (h1 ▸ rfl) hq
        · exact h1
      have hnd2 : (rest.map Prod.fst).Nodup := by
        simp only [List.map_cons, List.nodup_cons] at hnd
        exact hnd.2
      have hbeq : (q.1 == p.1) = false := by
        simp [hq]
      have hrec := ih hnd2 hp2
      cases ho : List.findIdx? (fun k => k == p.1) (List.map Prod.fst rest) with
      | none => rw [ho] at hrec; simp at hrec
      | some i =>
        rw [ho] at hrec
        simp only [Option.some_bind] at hrec
        simp [List.get?_eq_getElem?, List.getElem?_map] at hrec
        simp [List.findIdx?_cons, hbeq, List.findIdx?_succ, ho, hrec]

lemma kvAB_vec_a : kvAB.vec "a" = [(1 : ℚ), 0] := rfl

lemma kvAB_vec_b : kvAB.vec "b" = [(0 : ℚ), 1] := rfl

lemma kvAB_get_a : kvAB.getVec? "a" = some [(1 : ℚ), 0] := rfl

lemma kvAB_get_b : kvAB.getVec? "b" = some [(0 : ℚ), 1] := rfl

lemma kvAB_size : kvAB.vectorSize = 2 := rfl

lemma kvAB_has_a : kvAB.hasWord "a" = true := rfl

lemma kvAB_has_b : kvAB.hasWord "b" = true := rfl

/-! Claim theorems. -/

/-- C1.  The claim says WordEmbeddingsWeightedSumSimilarity.score returns
the mean of the pair values over the pair count.  It cannot: the source
initializes count = 0, never increments it, and divides by it.  First
conjunct: no input whatsoever produces a finite returned value — every
call either raises (KeyError mid-loop, or ZeroDivisionError from the
int 0 / 0 when there are fewer than two rows) or returns the
non-finite float that the numpy division by the still-zero count
yields.  Second conjunct: the concrete two-row distribution from the
claim's scope returns that non-finite float (nan), not the mean. -/
theorem wess_never_returns_the_mean :
    (∀ (sq : ℚ → ℚ) (kv : KeyedVectors) (id2word : List String)
       (beta : List (List ℚ)) (q : ℚ),
       wessScore sq kv id2word beta ≠ Except.ok (NpFloat.finite q)) ∧
    wessScore testSqrt kvAB ["a", "b"] [[(1 : ℚ), 0], [0, 1]] =
      Except.ok NpFloat.nanOrInf := by
  constructor
  · intro sq kv id2word beta q
    simp only [wessScore]
    cases hm : exceptMap (fun p => wessPairValue sq kv id2word beta p.1 p.2)
        (combinations2 (List.range beta.length)) with
    | error e => simp [hm]
    | ok vals =>
      by_cases hemp : (combinations2 (List.range beta.length)).isEmpty
      · simp [hm, hemp, pyDivQ]
      · simp [hm, hemp, npDiv]
  · norm_num +decide [wessScore, wessPairValue, wessCentroid, wessAccum,
      List.enum, exceptMap, combinations2, List.range, List.range.loop, npDiv,
      kvAB_get_a, kvAB_get_b, kvAB_size, List.replicate, vecAdd, vecScale,
      vecDivScalar, cosineDistance, cosineSimilarity, dot, testSqrt]

/-- C2.  The pair value of WordEmbeddingsWeightedSumSimilarity is NOT
the cosine distance between the centroids of rows i and j: the source's
second centroid loop iterates enumerate(beta[i]) again.  First
conjunct: the pair value is independent of the index j.  Second and
third conjuncts: on rows [1,0] and [0,1] with orthogonal unit
embeddings, the code's pair value is 0 (distance of a centroid to
itself) while the value described by the claim is 1. -/
theorem wess_pair_ignores_second_row :
    (∀ (sq : ℚ → ℚ) (kv : KeyedVectors) (id2word : List String)
       (beta : List (List ℚ)) (i j j2 : Nat),
       wessPairValue sq kv id2word beta i j = wessPairValue sq kv id2word beta i j2) ∧
    wessPairValue testSqrt kvAB ["a", "b"] [[(1 : ℚ), 0], [0, 1]] 0 1 =
      Except.ok 0 ∧
    wessPairValueSpec testSqrt kvAB ["a", "b"] [[(1 : ℚ), 0], [0, 1]] 0 1 =
      Except.ok 1 := by
  refine ⟨fun sq kv id2word beta i j j2 => rfl, ?_, ?_⟩
  · norm_num +decide [wessPairValue, wessCentroid, wessAccum, List.enum,
      kvAB_get_a, kvAB_get_b, kvAB_size, List.replicate, vecAdd, vecScale,
      vecDivScalar, cosineDistance, cosineSimilarity, dot, testSqrt]
  · norm_num +decide [wessPairValueSpec, wessCentroid, wessAccum, List.enum,
      kvAB_get_a, kvAB_get_b, kvAB_size, List.replicate, vecAdd, vecScale,
      vecDivScalar, cosineDistance, cosineSimilarity, dot, testSqrt]

/-- C9.  Each ranked-overlap wrapper returns exactly one minus the
wrapped diversity metric's score on the same model output, with no
other transformation. -/
theorem rbo_wrappers_are_one_minus_diversity :
    ∀ (α : Type) (diversityScore : α → ℚ) (modelOutput : α),
      werboMatchScore diversityScore modelOutput = 1 - diversityScore modelOutput ∧
      werboCentroidScore diversityScore modelOutput = 1 - diversityScore modelOutput ∧
      rboScore diversityScore modelOutput = 1 - diversityScore modelOutput :=
  fun _ _ _ => ⟨rfl, rfl, rfl⟩

/-- C3 counterexample.  With a single topic the pairwise word-embedding
scorer fails with a ZeroDivisionError from the empty mean, not with a
dedicated NoTopicPairsError (an error kind the source never raises). -/
theorem weps_single_topic_not_noTopicPairsError :
    wepsScore testSqrt kvAB 1 [["a"]] = Except.error PyErr.zeroDivisionError ∧
    wepsScore testSqrt kvAB 1 [["a"]] ≠ Except.error PyErr.noTopicPairsError := by
  refine ⟨rfl, ?_⟩
  intro h
  exact PyErr.noConfusion (Except.error.inj h)

/-- C3 amended.  With fewer than two topics every pairwise scorer's
score call fails, but not with a dedicated NoTopicPairsError: the two
word-embedding scorers raise IndexError (zero topics, from topics[0]),
the topk Exception, or ZeroDivisionError (one topic, empty mean), and
the Jaccard scorer always raises ZeroDivisionError. -/
theorem pairwise_scorers_fail_below_two_topics (sq : ℚ → ℚ) (kv : KeyedVectors)
    (topk : Nat) (topics : List (List String)) (h : topics.length < 2) :
    (∃ e1, wepsScore sq kv topk topics = Except.error e1) ∧
    (∃ e2, wecsScore sq kv topk topics = Except.error e2) ∧
    pjsScore topk topics = Except.error PyErr.zeroDivisionError := by
  match topics with
  | [] =>
    refine ⟨⟨PyErr.indexError, rfl⟩, ⟨PyErr.indexError, rfl⟩, ?_⟩
    simp [pjsScore, combinations2, exceptMap, pyDivQ]
  | [t] =>
    refine ⟨?_, ?_, ?_⟩
    · by_cases hk : topk > t.length
      · exact ⟨PyErr.exceptionMsg "Words in topics are less than topk",
          by simp [wepsScore, hk]⟩
      · exact ⟨PyErr.zeroDivisionError,
          by simp [wepsScore, hk, combinations2, exceptMap, pyDivQ]⟩
    · by_cases hk : topk > t.length
      · exact ⟨PyErr.exceptionMsg "Words in topics are less than topk",
          by simp [wecsScore, hk]⟩
      · exact ⟨PyErr.zeroDivisionError,
          by simp [wecsScore, hk, combinations2, pyDivQ]⟩
    · simp [pjsScore, combinations2, exceptMap, pyDivQ]
  | a :: b :: rest => exfalso; simp only [List.length_cons] at h; omega

/-- C3 witness: the amended theorem applied to one concrete
single-topic input. -/
theorem pairwise_scorers_fail_below_two_topics_witness :
    (∃ e1, wepsScore testSqrt kvAB 1 [["a"]] = Except.error e1) ∧
    (∃ e2, wecsScore testSqrt kvAB 1 [["a"]] = Except.error e2) ∧
    pjsScore 1 [["a"]] = Except.error PyErr.zeroDivisionError :=
  pairwise_scorers_fail_below_two_topics testSqrt kvAB 1 [["a"]] (by simp)

/-- C6 counterexample.  PairwiseJaccardSimilarity is a top-k scorer
(it slices each topic to its first topk words), yet with topk = 2 and
one-word topics it raises nothing at all: Python slicing is lenient and
no guard exists, so the call returns 0.0. -/
theorem pjs_has_no_topk_guard :
    pjsScore 2 [["a"], ["b"]] = Except.ok 0 ∧
    pjsScore 2 [["a"], ["b"]] ≠
      Except.error (PyErr.exceptionMsg "Words in topics are less than topk") := by
  constructor
  · norm_num +decide [pjsScore, jaccardPair, exceptMap, combinations2, pyDivQ, List.dedup]
  · intro h
    have h0 : pjsScore 2 [["a"], ["b"]] = Except.ok 0 := by
      norm_num +decide [pjsScore, jaccardPair, exceptMap, combinations2, pyDivQ, List.dedup]
    exact absurd (h0 ▸ h) (by simp)

/-- C6 amended.  The two word-embedding top-k scorers do fail when topk
exceeds the first topic's word-list length, raising the source's
explicit Exception (the spec's InsufficientWordsError), checked once
against the first topic only; the Jaccard scorer performs no such
check. -/
theorem we_scorers_topk_guard (sq : ℚ → ℚ) (kv : KeyedVectors) (topk : Nat)
    (t0 : List String) (rest : List (List String)) (h : topk > t0.length) :
    wepsScore sq kv topk (t0 :: rest) =
      Except.error (PyErr.exceptionMsg "Words in topics are less than topk") ∧
    wecsScore sq kv topk (t0 :: rest) =
      Except.error (PyErr.exceptionMsg "Words in topics are less than topk") :=
  ⟨by simp [wepsScore, h], by simp [wecsScore, h]⟩

/-- C6 witness: the topk guard fires on a concrete two-topic input with
topk 2 and one-word topics. -/
theorem we_scorers_topk_guard_witness :
    wepsScore testSqrt kvAB 2 [["a"], ["b"]] =
      Except.error (PyErr.exceptionMsg "Words in topics are less than topk") ∧
    wecsScore testSqrt kvAB 2 [["a"], ["b"]] =
      Except.error (PyErr.exceptionMsg "Words in topics are less than topk") :=
  we_scorers_topk_guard testSqrt kvAB 2 ["a"] [["b"]] (by simp)

/-- C4 counterexample.  With duplicate words inside one top-k slice the
pair score is NOT the full set-semantics Jaccard ratio: on topics
[[a,a],[a,b]] with topk 2 the code yields 1/3 (the denominator counts
the duplicate), while collapsing each slice to a set yields 1/2. -/
theorem pjs_duplicates_not_set_semantics :
    pjsScore 2 [["a", "a"], ["a", "b"]] = Except.ok (1/3) ∧
    jaccardPairSpec 2 ["a", "a"] ["a", "b"] = 1/2 ∧
    ((1 : ℚ)/3 ≠ 1/2) := by
  refine ⟨?_, ?_, by norm_num⟩
  · norm_num +decide [pjsScore, jaccardPair, exceptMap, combinations2, pyDivQ,
      List.dedup]
  · norm_num +decide [jaccardPairSpec, List.dedup]

/-- C4 amended.  The pair score is the size of the intersection of the
two top-k slices taken as sets, divided by the sum of the RAW slice
lengths (duplicates not collapsed) minus that intersection; on
[[a,b],[b,c]] with topk 2 the score is 1/3. -/
theorem jaccard_pair_formula :
    (∀ (topk : Nat) (l1 l2 : List String),
       ((l1.take topk).length : ℚ) + ((l2.take topk).length : ℚ) -
           (((l1.take topk).toFinset ∩ (l2.take topk).toFinset).card : ℚ) ≠ 0 →
       jaccardPair topk l1 l2 = Except.ok
         ((((l1.take topk).toFinset ∩ (l2.take topk).toFinset).card : ℚ) /
           (((l1.take topk).length : ℚ) + ((l2.take topk).length : ℚ) -
             (((l1.take topk).toFinset ∩ (l2.take topk).toFinset).card : ℚ)))) ∧
    pjsScore 2 [["a", "b"], ["b", "c"]] = Except.ok (1/3) := by
  constructor
  · intro topk l1 l2 hden
    have hint := inter_length_eq_card (l1.take topk) (l2.take topk)
    simp only [jaccardPair, hint]
    simp only [pyDivQ]
    rw [if_neg hden]
  · norm_num +decide [pjsScore, jaccardPair, exceptMap, combinations2, pyDivQ,
      List.dedup]

/-- C4 witness: the amended pair formula applied at topk 2 to the
spec's own example pair. -/
theorem jaccard_pair_formula_witness :
    jaccardPair 2 ["a", "b"] ["b", "c"] = Except.ok
      (((((["a", "b"] : List String).take 2).toFinset ∩
          ((["b", "c"] : List String).take 2).toFinset).card : ℚ) /
        ((((["a", "b"] : List String).take 2).length : ℚ) +
          (((["b", "c"] : List String).take 2).length : ℚ) -
          (((((["a", "b"] : List String).take 2).toFinset ∩
              ((["b", "c"] : List String).take 2).toFinset).card : ℚ)))) :=
  jaccard_pair_formula.1 2 ["a", "b"] ["b", "c"]
    (by
      have hc : (((["a", "b"] : List String).take 2).toFinset ∩
          ((["b", "c"] : List String).take 2).toFinset).card = 1 := by decide
      rw [hc]
      norm_num)

/-- C5 counterexample.  On two identical topics whose words are all in
the vocabulary (orthogonal unit vectors for a and b), the pairwise
word-embedding scorer returns the mean of ALL cross word-pair
similarities, here 1/2, not the claimed maximum 1.0.  The square-root
stand-in agrees with the true square root at the only consulted point
(norm product 1). -/
theorem weps_identical_topics_not_one :
    testSqrt 1 = 1 ∧
    wepsScore testSqrt kvAB 2 [["a", "b"], ["a", "b"]] = Except.ok (1/2) ∧
    ((1 : ℚ)/2 ≠ 1) := by
  refine ⟨rfl, ?_, by norm_num⟩
  norm_num +decide [wepsScore, wepsPairAcc, exceptMap, combinations2, pyDivQ,
    kvAB_vec_a, kvAB_vec_b, kvAB_has_a, kvAB_has_b, wvSimilarity,
    cosineSimilarity, dot, testSqrt]

/-- C5 amended.  The centroid scorer does return 1.0 on n identical
topics (n at least 2, topk within the word list), provided the common
centroid has nonzero squared norm and the square root squares back to
it there — both true of the exact square root whenever at least one
top-k word is in vocabulary and the centroid is nonzero. -/
theorem wecs_identical_topics (sq : ℚ → ℚ) (kv : KeyedVectors) (topk n : Nat)
    (l : List String) (hn : 2 ≤ n) (hk : ¬ topk > l.length)
    (hsq : sq (dot (topicCentroid kv topk l) (topicCentroid kv topk l)) *
        sq (dot (topicCentroid kv topk l) (topicCentroid kv topk l)) =
      dot (topicCentroid kv topk l) (topicCentroid kv topk l))
    (hne : dot (topicCentroid kv topk l) (topicCentroid kv topk l) ≠ 0) :
    wecsScore sq kv topk (List.replicate n l) = Except.ok 1 := by
  have hpair : wecsPair sq kv topk l l = 1 := by
    unfold wecsPair cosineDistance cosineSimilarity
    rw [hsq, div_self hne]
    ring
  obtain ⟨m, rfl⟩ : ∃ m, n = m + 2 := ⟨n - 2, by omega⟩
  have hnil : combinations2 (List.replicate (m + 2) l) ≠ [] :=
    combinations2_ne_nil _ (by simp)
  have hlen : (combinations2 (List.replicate (m + 2) l)).length ≠ 0 := by
    simpa [List.length_eq_zero] using hnil
  have hmap : (combinations2 (List.replicate (m + 2) l)).map
      (fun p => wecsPair sq kv topk p.1 p.2) =
      List.replicate ((combinations2 (List.replicate (m + 2) l)).map
        (fun p => wecsPair sq kv topk p.1 p.2)).length 1 := by
    apply List.eq_replicate_of_mem
    intro x hx
    obtain ⟨p, hp, rfl⟩ := List.mem_map.mp hx
    have hpl := mem_combinations2_replicate (m + 2) l p hp
    rw [hpl]
    exact hpair
  have hcons : List.replicate (m + 2) l = l :: List.replicate (m + 1) l := by
    simp [List.replicate_succ]
  conv_lhs => rw [hcons]
  simp only [wecsScore]
  rw [if_neg hk, ← hcons, hmap]
  have hKQ : ((combinations2 (List.replicate (m + 2) l)).length : ℚ) ≠ 0 := by
    simpa [Nat.cast_eq_zero] using hlen
  simp only [List.sum_replicate, List.length_replicate, List.length_map, pyDivQ]
  rw [if_neg hKQ, nsmul_eq_mul, mul_one, div_self hKQ]

/-- C5 witness: the amended centroid statement applied to two copies of
a one-word topic whose embedding vector is [2]. -/
theorem wecs_identical_topics_witness :
    wecsScore testSqrt kvA2 1 (List.replicate 2 ["a"]) = Except.ok 1 :=
  wecs_identical_topics testSqrt kvA2 1 2 ["a"] (by norm_num) (by norm_num)
    (by norm_num +decide [topicCentroid, centroidAcc, kvA2, KeyedVectors.hasWord,
      KeyedVectors.vec, KeyedVectors.getVec?, List.findIdx?, List.replicate,
      vecAdd, vecDivScalar, dot, testSqrt])
    (by norm_num +decide [topicCentroid, centroidAcc, kvA2, KeyedVectors.hasWord,
      KeyedVectors.vec, KeyedVectors.getVec?, List.findIdx?, List.replicate,
      vecAdd, vecDivScalar, dot, testSqrt])

/-- C7 counterexample.  A mapping whose two values have unequal shapes
fails in np.stack with a ValueError, not with a dedicated
InvalidEmbeddingFormat (an error kind the source never raises). -/
theorem convert_unequal_shapes_error_kind :
    convertDictToKeyedvectors [("a", NpArr.mk [1] [1]), ("b", NpArr.mk [2] [1, 2])] =
      Except.error PyErr.valueError ∧
    convertDictToKeyedvectors [("a", NpArr.mk [1] [1]), ("b", NpArr.mk [2] [1, 2])] ≠
      Except.error PyErr.invalidEmbeddingFormat := by
  refine ⟨rfl, ?_⟩
  intro h
  exact PyErr.noConfusion (Except.error.inj h)

/-- C7 amended.  Whenever a nonempty mapping is not made of
1-dimensional values of one common shape, conversion fails — with
AssertionError when the first value is not 1-dimensional, else with
ValueError from stacking — but never with a dedicated
InvalidEmbeddingFormat. -/
theorem convert_dict_shape_guard (k0 : String) (arr : NpArr)
    (rest : List (String × NpArr))
    (h : ¬(arr.shape.length = 1 ∧ ∀ p ∈ (k0, arr) :: rest, p.2.shape = arr.shape)) :
    convertDictToKeyedvectors ((k0, arr) :: rest) =
      Except.error PyErr.assertionError ∨
    convertDictToKeyedvectors ((k0, arr) :: rest) =
      Except.error PyErr.valueError := by
  by_cases h1 : arr.shape.length = 1
  · right
    have h2 : ¬ ∀ p ∈ (k0, arr) :: rest, p.2.shape = arr.shape :=
      fun hall => h ⟨h1, hall⟩
    have h3 : ((k0, arr) :: rest).all (fun kvp => kvp.2.shape == arr.shape) = false := by
      cases hall : ((k0, arr) :: rest).all (fun kvp => kvp.2.shape == arr.shape) with
      | false => rfl
      | true =>
        exfalso
        apply h2
        intro p hp
        have := List.all_eq_true.mp hall p hp
        exact beq_iff_eq.mp this
    simp [convertDictToKeyedvectors, h1, h3]
  · left
    simp [convertDictToKeyedvectors, h1]

/-- C7 witness: the shape guard applied to a concrete mapping with
unequal value shapes. -/
theorem convert_dict_shape_guard_witness :
    convertDictToKeyedvectors [("a", NpArr.mk [1] [1]), ("b", NpArr.mk [2] [1, 2])] =
      Except.error PyErr.assertionError ∨
    convertDictToKeyedvectors [("a", NpArr.mk [1] [1]), ("b", NpArr.mk [2] [1, 2])] =
      Except.error PyErr.valueError :=
  convert_dict_shape_guard "a" (NpArr.mk [1] [1]) [("b", NpArr.mk [2] [1, 2])]
    (by decide)

/-- C8.  Converting an explicit mapping is a round trip: whenever
conversion succeeds and the mapping's keys are distinct (as Python dict
keys are), the table's vocabulary is exactly the mapping's keys in
encounter order and vector lookup returns every entry's original vector
unchanged. -/
theorem convert_dict_roundtrip (dic : List (String × NpArr)) (kv : KeyedVectors)
    (hnd : (dic.map Prod.fst).Nodup)
    (hok : convertDictToKeyedvectors dic = Except.ok kv) :
    kv.keys = dic.map Prod.fst ∧ ∀ p ∈ dic, kv.getVec? p.1 = some p.2.data := by
  match dic with
  | [] => exact absurd hok (by simp [convertDictToKeyedvectors])
  | (k0, arr) :: rest =>
    simp only [convertDictToKeyedvectors] at hok
    by_cases h1 : arr.shape.length = 1
    · rw [if_pos h1] at hok
      by_cases h2 : ((k0, arr) :: rest).all (fun kvp => kvp.2.shape == arr.shape) = true
      · rw [if_pos h2] at hok
        have hkv := Except.ok.inj hok
        subst hkv
        refine ⟨rfl, ?_⟩
        intro p hp
        exact assoc_getVec ((k0, arr) :: rest) hnd p hp
      · rw [if_neg h2] at hok
        exact absurd hok (by simp)
    · rw [if_neg h1] at hok
      exact absurd hok (by simp)

/-- C8 witness: the round trip applied to a concrete two-entry mapping. -/
theorem convert_dict_roundtrip_witness :
    (KeyedVectors.mk 2 ["a", "b"] [[(1 : ℚ), 2], [3, 4]]).getVec? "b" =
      some [(3 : ℚ), 4] ∧
    (KeyedVectors.mk 2 ["a", "b"] [[(1 : ℚ), 2], [3, 4]]).keys = ["a", "b"] := by
  have h := convert_dict_roundtrip
    [("a", NpArr.mk [2] [1, 2]), ("b", NpArr.mk [2] [3, 4])]
    (KeyedVectors.mk 2 ["a", "b"] [[(1 : ℚ), 2], [3, 4]])
    (by decide) rfl
  exact ⟨h.2 ("b", NpArr.mk [2] [3, 4])
    (List.mem_cons_of_mem _ (List.mem_cons_self _ _)), h.1⟩

/-- C10 helper: when no word pair of a topic pair lies wholly in the
vocabulary, the inner double loop leaves both accumulators at zero. -/
lemma wepsPairAcc_zero_of_no_vocab_pair (sq : ℚ → ℚ) (kv : KeyedVectors)
    (topk : Nat) (l1 l2 : List String)
    (h : ∀ w1 ∈ l1.take topk, ∀ w2 ∈ l2.take topk,
      ¬(kv.hasWord w1 = true ∧ kv.hasWord w2 = true)) :
    wepsPairAcc sq kv topk l1 l2 = (0, 0) := by
  unfold wepsPairAcc
  apply foldl_step_id
  intro x hx b
  obtain ⟨w1, hw1, hx2⟩ := List.mem_flatMap.mp hx
  obtain ⟨w2, hw2, rfl⟩ := List.mem_map.mp hx2
  have hcond : (kv.hasWord w1 && kv.hasWord w2) = false := by
    cases hb1 : kv.hasWord w1 with
    | false => simp
    | true =>
      cases hb2 : kv.hasWord w2 with
      | false => simp
      | true => exact absurd ⟨hb1, hb2⟩ (h w1 hw1 w2 hw2)
  simp [hcond]

/-- C10.  With at least one topic pair having no word pair wholly in
the embedding vocabulary (and the topk guard passing), the pairwise
scorer raises ZeroDivisionError: the per-pair sum 0 is divided by the
zero pair-word counter. -/
theorem weps_raises_on_pair_with_no_vocab_words (sq : ℚ → ℚ) (kv : KeyedVectors)
    (topk : Nat) (t0 : List String) (rest : List (List String))
    (hk : ¬ topk > t0.length)
    (hex : ∃ p ∈ combinations2 (t0 :: rest),
      ∀ w1 ∈ p.1.take topk, ∀ w2 ∈ p.2.take topk,
        ¬(kv.hasWord w1 = true ∧ kv.hasWord w2 = true)) :
    wepsScore sq kv topk (t0 :: rest) = Except.error PyErr.zeroDivisionError := by
  have hmap : exceptMap
      (fun p => pyDivQ (wepsPairAcc sq kv topk p.1 p.2).1
        ((wepsPairAcc sq kv topk p.1 p.2).2 : ℚ))
      (combinations2 (t0 :: rest)) = Except.error PyErr.zeroDivisionError := by
    apply exceptMap_error_unique
    · intro x hx e2 he2
      by_cases hz : ((wepsPairAcc sq kv topk x.1 x.2).2 : ℚ) = 0
      · simp only [pyDivQ, if_pos hz] at he2
        exact (Except.error.inj he2).symm
      · simp only [pyDivQ, if_neg hz] at he2
        exact absurd he2 (by simp)
    · obtain ⟨p, hp, hno⟩ := hex
      refine ⟨p, hp, ?_⟩
      rw [wepsPairAcc_zero_of_no_vocab_pair sq kv topk p.1 p.2 hno]
      simp [pyDivQ]
  simp [wepsScore, hk, hmap]

/-- C10 witness: two one-word topics, the second word out of
vocabulary, so the single topic pair has no in-vocabulary word pair. -/
theorem weps_raises_on_pair_with_no_vocab_words_witness :
    wepsScore testSqrt kvAB 1 [["a"], ["x"]] = Except.error PyErr.zeroDivisionError :=
  weps_raises_on_pair_with_no_vocab_words testSqrt kvAB 1 ["a"] [["x"]]
    (by norm_num) (by decide)

end Octis
